import Mathlib

/-!
Shallow embedding of the chain-pruning pass `PurgeDB` from `src/purge.cpp`
of the Cryptonite repository, with proofs about its three phases: the
Retention Classifier (passes 1 and 2 over `mapBlockIndex`), the Index
Mutator (the third pass over `setDelete`), and the File Reaper (the
deletion loop over the `blocks` directory).

External collaborators (`LoadBlockIndex`, `ActivateBestChain`, the lock,
`blockCache.ReadBlockFromDisk`, `pblocktree`) are modelled at their
interface boundary as boolean/functional inputs of the pass, following the
interface list of the specification; everything `PurgeDB` itself does is
translated statement by statement.

Filenames are modelled as `List Char` (the pass only ever inspects the
`std::string` of a directory entry character by character).
-/

/-- One block's metadata as stored in the index: the `CBlockIndex` fields
that `PurgeDB` reads or writes (block hash, height `nHeight`, container
file id `nFile`, status bit field `nStatus`). -/
structure BlockRecord where
  hash : Nat
  nHeight : Int
  nFile : Int
  nStatus : Nat
deriving DecidableEq, Repr

/-- Modelled from the spec: the HAS_DATA status flag. The numeric flag
constants live in `main.h`, which is not among the shown sources; the
upstream value, bit 3, is used (any single bit would do). -/
def BLOCK_HAVE_DATA : Nat := 8

/-- Modelled from the spec: the HAS_UNDO status flag (bit 4, the upstream
value). -/
def BLOCK_HAVE_UNDO : Nat := 16

/-- The test `pindex->nStatus & BLOCK_HAVE_DATA || pindex->nStatus &
BLOCK_HAVE_UNDO` from `purge.cpp` (lines 65 and 76). -/
def hasDataOrUndo (r : BlockRecord) : Bool :=
  decide (r.nStatus &&& BLOCK_HAVE_DATA ≠ 0) || decide (r.nStatus &&& BLOCK_HAVE_UNDO ≠ 0)

/-- The 32-bit value of `~(BLOCK_HAVE_DATA | BLOCK_HAVE_UNDO)`; `nStatus`
is a 32-bit unsigned field, so the C complement is taken at width 32. -/
def FLAG_CLEAR_MASK : Nat := 2 ^ 32 - 1 - (BLOCK_HAVE_DATA ||| BLOCK_HAVE_UNDO)

/-- `pindex->nStatus &= ~(BLOCK_HAVE_DATA | BLOCK_HAVE_UNDO)` from
`purge.cpp` line 93. -/
def clearFlags (r : BlockRecord) : BlockRecord :=
  { r with nStatus := r.nStatus &&& FLAG_CLEAR_MASK }

/-- Pass 1 of `PurgeDB` (lines 61-69): every record with
`nHeight + MIN_HISTORY >= chainActive.Height()` contributes its `nFile` to
`setNeed` unconditionally — the flag test on line 65 has no braces and
guards only the log line, not the `insert`. -/
def setNeedOf (idx : List BlockRecord) (minHistory tip : Int) : List Int :=
  (idx.filter (fun r => decide (tip ≤ r.nHeight + minHistory))).map (fun r => r.nFile)

/-- The pass-2 selection test (lines 74-79): old enough, still flagged as
having data or undo, and its file not needed by any protected block. -/
def prunableP (need : List Int) (minHistory tip : Int) (r : BlockRecord) : Bool :=
  decide (r.nHeight + minHistory < tip) && hasDataOrUndo r && !(need.contains r.nFile)

/-- Pass 2 of `PurgeDB` (lines 72-82): the `setDelete` selection. -/
def prunableOf (idx : List BlockRecord) (minHistory tip : Int) : List BlockRecord :=
  idx.filter (prunableP (setNeedOf idx minHistory tip) minHistory tip)

/-- The whitespace characters that the `%d` conversion of `sscanf` skips. -/
def isScanfSpace (c : Char) : Bool :=
  c == ' ' || c == '\t' || c == '\n' || c == '\x0b' || c == '\x0c' || c == '\r'

/-- Decimal value of a digit run. -/
def digitsVal (cs : List Char) : Nat :=
  cs.foldl (fun a c => a * 10 + (c.toNat - 48)) 0

/-- `sscanf(fname.c_str()+3, "%d.dat", &idx)` returning 1 (line 113),
modelled exactly: `%d` skips leading whitespace, consumes an optional sign
followed by a non-empty digit run, and assigns; the trailing literal
`.dat` of the format is matched only after the assignment, so it does not
affect the return value. A digit run seen here is at most 9 characters, so
the parsed value fits an `int` and is modelled as an exact integer. -/
def scanfD (s : List Char) : Option Int :=
  let t := s.dropWhile isScanfSpace
  match t with
  | [] => none
  | c :: rest =>
    if c == '-' then
      if (rest.takeWhile Char.isDigit).isEmpty then none
      else some (-(digitsVal (rest.takeWhile Char.isDigit) : Int))
    else if c == '+' then
      if (rest.takeWhile Char.isDigit).isEmpty then none
      else some ((digitsVal (rest.takeWhile Char.isDigit) : Int))
    else
      if (t.takeWhile Char.isDigit).isEmpty then none
      else some ((digitsVal (t.takeWhile Char.isDigit) : Int))

/-- One iteration of the deletion loop (lines 104-120): `true` when the
directory entry survives (one of the `continue`s or the `setNeed` hit),
`false` when `remove` is reached. -/
def reapKeeps (need : List Int) (fname : List Char) : Bool :=
  if fname.length ≠ 12 then true
  else if fname.take 3 ≠ ['r', 'e', 'v'] ∧ fname.take 3 ≠ ['b', 'l', 'k'] then true
  else
    match scanfD (fname.drop 3) with
    | none => true
    | some idx => need.contains idx

/-- The deletion loop of `PurgeDB` over the `blocks` directory: the
entries still present after it. -/
def reap (need : List Int) (files : List (List Char)) : List (List Char) :=
  files.filter (reapKeeps need)

/-- The entries the deletion loop removes. -/
def reaped (need : List Int) (files : List (List Char)) : List (List Char) :=
  files.filter (fun f => !reapKeeps need f)

/-- Observable destructive actions of the pass, in program order. -/
inductive PurgeEvent where
  | eraseTx (txid : Nat)
  | writeRecord (r : BlockRecord)
  | deleteFile (name : List Char)
deriving DecidableEq, Repr

/-- Third pass of `PurgeDB` (lines 85-95) as its event trace: for each
selected block, read it from disk — the boolean result of
`blockCache.ReadBlockFromDisk` is discarded by the source, so a failed
read simply leaves `block.vtx` empty and contributes no transactions —
erase the tx-index entry of every transaction read, then clear the data
and undo flags and write the record back. -/
def mutTrace (readBlock : BlockRecord → Option (List Nat)) (dele : List BlockRecord) :
    List PurgeEvent :=
  (dele.map (fun r =>
    (((readBlock r).getD []).map PurgeEvent.eraseTx) ++
      [PurgeEvent.writeRecord (clearFlags r)])).flatten

/-- All transaction ids erased by the third pass. -/
def erasedTxs (readBlock : BlockRecord → Option (List Nat)) (dele : List BlockRecord) :
    List Nat :=
  (dele.map (fun r => (readBlock r).getD [])).flatten

/-- The inputs of one run of `PurgeDB`, with the external collaborators at
their interface boundary: whether `lock.try_lock`, `LoadBlockIndex` and
`ActivateBestChain` succeed, the activated tip height and the
`MIN_HISTORY` constant, the contents of `mapBlockIndex` and of the
transaction index, the disk contents as a read function (per the spec a
read yields the block's transaction list or fails), and the `blocks`
directory (existence plus entries). -/
structure PurgeInput where
  lockOk : Bool
  loadOk : Bool
  activateOk : Bool
  minHistory : Int
  tip : Int
  blockIndex : List BlockRecord
  txIndex : List Nat
  readBlock : BlockRecord → Option (List Nat)
  dirExists : Bool
  dirFiles : List (List Char)

/-- The abort branches of `PurgeDB`, in source order. -/
inductive PurgeAbort where
  | alreadyRunning
  | indexLoad
  | activation
  | insufficientHistory
  | missingBlocksDir
deriving DecidableEq, Repr

/-- Outcome of one run of `PurgeDB`: final index and tx-index contents,
the directory entries still on disk, the trace of destructive actions,
which abort branch (if any) was taken — observable only through the log
messages — and the argument of the final `exit` call at the `fail` label,
which every path, successful or not, falls through to. -/
structure PurgeResult where
  blockIndex : List BlockRecord
  txIndex : List Nat
  filesRemaining : List (List Char)
  trace : List PurgeEvent
  failure : Option PurgeAbort
  exitCode : Nat
deriving DecidableEq, Repr

/-- `goto fail` before any destructive step: nothing changed, `exit(0)`. -/
def abortResult (inp : PurgeInput) (e : PurgeAbort) : PurgeResult :=
  { blockIndex := inp.blockIndex, txIndex := inp.txIndex,
    filesRemaining := inp.dirFiles, trace := [], failure := some e, exitCode := 0 }

/-- Pass 1 of the run: the File Identifier Set (`setNeed`). -/
def purgeNeed (inp : PurgeInput) : List Int :=
  setNeedOf inp.blockIndex inp.minHistory inp.tip

/-- Pass 2 of the run: the Prunable Block Set (`setDelete`). -/
def purgeDele (inp : PurgeInput) : List BlockRecord :=
  prunableOf inp.blockIndex inp.minHistory inp.tip

/-- The block index after the third pass: the selected blocks — and only
those — have their data and undo flags stripped in place. -/
def mutatedIndex (inp : PurgeInput) : List BlockRecord :=
  inp.blockIndex.map (fun r =>
    if prunableP (purgeNeed inp) inp.minHistory inp.tip r then clearFlags r else r)

/-- The transaction index after the third pass: every transaction of every
successfully read selected block is erased (`EraseTxIndex` is an idempotent
set removal). -/
def mutatedTxIndex (inp : PurgeInput) : List Nat :=
  inp.txIndex.filter (fun t => !((erasedTxs inp.readBlock (purgeDele inp)).contains t))

/-- Shallow embedding of `PurgeDB` (`purge.cpp` lines 17-125): lock, load,
activate, the `MIN_HISTORY` precondition, the two classifier passes, the
mutation pass, the directory-existence check, the deletion loop, and the
shared `fail:`/`exit(0)` epilogue. -/
def purgeDB (inp : PurgeInput) : PurgeResult :=
  if inp.lockOk = false then abortResult inp PurgeAbort.alreadyRunning
  else if inp.loadOk = false then abortResult inp PurgeAbort.indexLoad
  else if inp.activateOk = false then abortResult inp PurgeAbort.activation
  else if inp.tip ≤ inp.minHistory then abortResult inp PurgeAbort.insufficientHistory
  else if inp.dirExists = false then
    { blockIndex := mutatedIndex inp, txIndex := mutatedTxIndex inp,
      filesRemaining := inp.dirFiles,
      trace := mutTrace inp.readBlock (purgeDele inp),
      failure := some PurgeAbort.missingBlocksDir, exitCode := 0 }
  else
    { blockIndex := mutatedIndex inp, txIndex := mutatedTxIndex inp,
      filesRemaining := reap (purgeNeed inp) inp.dirFiles,
      trace := mutTrace inp.readBlock (purgeDele inp) ++
        (reaped (purgeNeed inp) inp.dirFiles).map PurgeEvent.deleteFile,
      failure := none, exitCode := 0 }

/-! ### Basic facts about the embedded definitions -/

theorem clearFlags_hash (r : BlockRecord) : (clearFlags r).hash = r.hash := rfl

theorem clearFlags_nHeight (r : BlockRecord) : (clearFlags r).nHeight = r.nHeight := rfl

theorem clearFlags_nFile (r : BlockRecord) : (clearFlags r).nFile = r.nFile := rfl

/-- After the mask of line 93, neither flag bit can test set any more. -/
theorem and_clear_mask_and_flag (s f : Nat) (hf : FLAG_CLEAR_MASK &&& f = 0) :
    s &&& FLAG_CLEAR_MASK &&& f = 0 := by
  apply Nat.eq_of_testBit_eq
  intro k
  rw [Nat.testBit_and, Nat.testBit_and]
  have hk : (FLAG_CLEAR_MASK &&& f).testBit k = false := by rw [hf]; simp
  rw [Nat.testBit_and] at hk
  rcases Bool.and_eq_false_iff.mp hk with h | h <;> simp [h]

/-- A record just stripped by the Index Mutator reports neither data nor
undo as present. -/
theorem hasDataOrUndo_clearFlags (r : BlockRecord) :
    hasDataOrUndo (clearFlags r) = false := by
  have h8 : r.nStatus &&& FLAG_CLEAR_MASK &&& BLOCK_HAVE_DATA = 0 :=
    and_clear_mask_and_flag _ _ (by decide)
  have h16 : r.nStatus &&& FLAG_CLEAR_MASK &&& BLOCK_HAVE_UNDO = 0 :=
    and_clear_mask_and_flag _ _ (by decide)
  simp [hasDataOrUndo, clearFlags, h8, h16]

/-- Membership in the pass-1 protected file set. -/
theorem mem_setNeedOf {idx : List BlockRecord} {minHistory tip : Int} {b : BlockRecord}
    (hb : b ∈ idx) (h : tip ≤ b.nHeight + minHistory) :
    b.nFile ∈ setNeedOf idx minHistory tip := by
  simp only [setNeedOf, List.mem_map, List.mem_filter]
  exact ⟨b, ⟨hb, by simpa using h⟩, rfl⟩

/-- Characterisation of the pass-2 selection. -/
theorem mem_prunableOf {idx : List BlockRecord} {minHistory tip : Int} {r : BlockRecord} :
    r ∈ prunableOf idx minHistory tip ↔
      r ∈ idx ∧ r.nHeight + minHistory < tip ∧ hasDataOrUndo r = true ∧
        r.nFile ∉ setNeedOf idx minHistory tip := by
  simp only [prunableOf, List.mem_filter, prunableP, Bool.and_eq_true, decide_eq_true_eq,
    Bool.not_eq_true', ← Bool.not_eq_true, List.elem_iff, and_assoc]

/-! ### C1 and C2: the Retention Classifier -/

/-- C1: after classification a Block Record is in the Prunable Block Set
(`setDelete`) iff its height plus the retention window is below the tip
height, it has HAS_DATA or HAS_UNDO set, and its file id is not in the
File Identifier Set (`setNeed`); in particular a block sharing its file id
with any protected (in-window) block is never selected, even if it is
individually old enough. -/
theorem c1_prunable_selection (idx : List BlockRecord) (minHistory tip : Int)
    (r : BlockRecord) :
    (r ∈ prunableOf idx minHistory tip ↔
      r ∈ idx ∧ r.nHeight + minHistory < tip ∧ hasDataOrUndo r = true ∧
        r.nFile ∉ setNeedOf idx minHistory tip) ∧
    (∀ b, b ∈ idx → tip ≤ b.nHeight + minHistory → b.nFile = r.nFile →
      r ∉ prunableOf idx minHistory tip) := by
  refine ⟨mem_prunableOf, fun b hb hle hfile hmem => ?_⟩
  have hneed : b.nFile ∈ setNeedOf idx minHistory tip := mem_setNeedOf hb hle
  rw [hfile] at hneed
  exact (mem_prunableOf.mp hmem).2.2.2 hneed

/-- Witness for C1, the scenario of the spec: tip 5000, window 1000, block
A at height 3900 shares file 7 with protected block B at height 4200, so A
is not selected although 3900 + 1000 < 5000 and A still has data. -/
theorem c1_witness :
    (⟨10, 3900, 7, 8⟩ : BlockRecord) ∉
      prunableOf [⟨10, 3900, 7, 8⟩, ⟨11, 4200, 7, 8⟩] 1000 5000 :=
  (c1_prunable_selection [⟨10, 3900, 7, 8⟩, ⟨11, 4200, 7, 8⟩] 1000 5000
      ⟨10, 3900, 7, 8⟩).2 ⟨11, 4200, 7, 8⟩ (by decide) (by decide) rfl

/-- C2: after pass 1, every Block Record with
`height + RetentionWindow >= tipHeight` has its file id in the File
Identifier Set, unconditionally — the data/undo flags play no role (the
flag test of line 65 guards only a log statement). -/
theorem c2_retention_coverage (idx : List BlockRecord) (minHistory tip : Int)
    (r : BlockRecord) (hr : r ∈ idx) (h : tip ≤ r.nHeight + minHistory) :
    r.nFile ∈ setNeedOf idx minHistory tip :=
  mem_setNeedOf hr h

/-- Witness for C2: a block inside the window whose status flags are all
clear still gets its file id 7 protected. -/
theorem c2_witness :
    (7 : Int) ∈ setNeedOf [⟨11, 4200, 7, 0⟩] 1000 5000 :=
  c2_retention_coverage [⟨11, 4200, 7, 0⟩] 1000 5000 ⟨11, 4200, 7, 0⟩ (by decide)
    (by decide)

/-! ### C3: insufficient history aborts before any destructive step -/

/-- C3: when `tipHeight <= MIN_HISTORY` the pass stops at the
insufficient-history check before any destructive step — the block index,
the transaction index and the blocks directory are untouched and the
trace of destructive actions is empty; the insufficient-history branch is
the one reported whenever the earlier lock/load/activate steps succeeded.
Conversely, a run that reports no failure had `tipHeight > MIN_HISTORY`. -/
theorem c3_insufficient_history_aborts (inp : PurgeInput) :
    (inp.tip ≤ inp.minHistory →
      (purgeDB inp).blockIndex = inp.blockIndex ∧
      (purgeDB inp).txIndex = inp.txIndex ∧
      (purgeDB inp).filesRemaining = inp.dirFiles ∧
      (purgeDB inp).trace = [] ∧
      (inp.lockOk = true → inp.loadOk = true → inp.activateOk = true →
        (purgeDB inp).failure = some PurgeAbort.insufficientHistory)) ∧
    ((purgeDB inp).failure = none → inp.minHistory < inp.tip) := by
  constructor
  · intro ht
    cases hl : inp.lockOk <;> cases ho : inp.loadOk <;> cases ha : inp.activateOk <;>
      simp [purgeDB, abortResult, hl, ho, ha, ht]
  · intro hnone
    by_contra hlt
    have ht : inp.tip ≤ inp.minHistory := not_lt.mp hlt
    cases hl : inp.lockOk <;> cases ho : inp.loadOk <;> cases ha : inp.activateOk <;>
      simp [purgeDB, abortResult, hl, ho, ha, ht] at hnone

/-- Witness for C3: a concrete run with tip 600 and window 1000 leaves an
empty trace and reports the insufficient-history branch. -/
theorem c3_witness :
    (purgeDB ⟨true, true, true, 1000, 600, [⟨1, 2, 3, 8⟩], [4], fun _ => none, true,
        []⟩).trace = [] ∧
    (purgeDB ⟨true, true, true, 1000, 600, [⟨1, 2, 3, 8⟩], [4], fun _ => none, true,
        []⟩).failure = some PurgeAbort.insufficientHistory := by
  have h := (c3_insufficient_history_aborts
    ⟨true, true, true, 1000, 600, [⟨1, 2, 3, 8⟩], [4], fun _ => none, true, []⟩).1
    (by decide)
  exact ⟨h.2.2.2.1, h.2.2.2.2 rfl rfl rfl⟩

/-! ### C4 and C10: the File Reaper's filename handling -/

/-- Counterexample for C4: the spec's own pattern
`{3-letter tag}{9-digit zero-padded index}.dat` describes a 16-character
name, but the loop first requires `fname.size() == 12`; hence the file
`blk000000001.dat` (sixteen characters, index 1) survives the reaper even
when index 1 is absent from the File Identifier Set, while the
non-conforming twelve-character name `blk-0001.dat` is deleted. -/
theorem c4_counterexample :
    reap [] [['b', 'l', 'k', '0', '0', '0', '0', '0', '0', '0', '0', '1', '.', 'd', 'a', 't']] =
      [['b', 'l', 'k', '0', '0', '0', '0', '0', '0', '0', '0', '1', '.', 'd', 'a', 't']] ∧
    reap [] [['b', 'l', 'k', '-', '0', '0', '0', '1', '.', 'd', 'a', 't']] = [] := by
  decide

/-- C4 as amended: the reaper deletes a directory entry iff its name is
exactly 12 characters long, starts with the tag `blk` or `rev`, the
remainder parses under C `sscanf` `%d` semantics — optional whitespace and
sign followed by at least one digit; the trailing `.dat` is not checked —
and the parsed index is absent from the File Identifier Set. Entries
failing the length, tag or parse test are ignored, and a parsed entry
whose index is in the set is kept. -/
theorem c4_reaper_deletion (need : List Int) (fname : List Char) :
    reapKeeps need fname = false ↔
      fname.length = 12 ∧
      (fname.take 3 = ['r', 'e', 'v'] ∨ fname.take 3 = ['b', 'l', 'k']) ∧
      ∃ idx, scanfD (fname.drop 3) = some idx ∧ idx ∉ need := by
  unfold reapKeeps
  split_ifs with hlen hpre
  · simp only [Bool.true_eq_false, false_iff]
    intro h
    exact hlen h.1
  · simp only [Bool.true_eq_false, false_iff]
    intro h
    rcases h.2.1 with hr | hb
    · exact hpre.1 hr
    · exact hpre.2 hb
  · have hlen2 : fname.length = 12 := not_ne_iff.mp hlen
    have hor : fname.take 3 = ['r', 'e', 'v'] ∨ fname.take 3 = ['b', 'l', 'k'] := by
      tauto
    cases hscan : scanfD (fname.drop 3) with
    | none =>
      simp only [Bool.true_eq_false, false_iff]
      rintro ⟨-, -, idx, hidx, -⟩
      exact Option.noConfusion hidx
    | some idx =>
      constructor
      · intro hkeep
        have hkeep2 : need.contains idx = false := hkeep
        refine ⟨hlen2, hor, idx, rfl, ?_⟩
        intro hmem
        have he : need.contains idx = true := List.elem_iff.mpr hmem
        rw [he] at hkeep2
        exact Bool.noConfusion hkeep2
      · rintro ⟨-, -, idx2, hidx2, hnotmem⟩
        have heq : idx2 = idx := (Option.some.inj hidx2).symm
        subst heq
        show need.contains idx2 = false
        rw [← Bool.not_eq_true]
        intro hc
        exact hnotmem (List.elem_iff.mp hc)

/-- Witness for C4 as amended: the twelve-character name `blk00001.dat`
parses to index 1 and, with the File Identifier Set empty, is deleted. -/
theorem c4_witness :
    reapKeeps [] ['b', 'l', 'k', '0', '0', '0', '0', '1', '.', 'd', 'a', 't'] = false :=
  (c4_reaper_deletion [] ['b', 'l', 'k', '0', '0', '0', '0', '1', '.', 'd', 'a', 't']).mpr
    ⟨by decide, Or.inr (by decide), 1, by decide, by decide⟩

/-- C10: there is a twelve-character filename with tag `blk` whose index
field is not a digit run, yet the reaper parses it — `%d` accepts a sign —
and deletes it when the parsed index (here `-1`) is absent from the File
Identifier Set, and keeps it when that index is present. -/
theorem c10_lenient_index_parse :
    ∃ fname : List Char,
      fname.length = 12 ∧ fname.take 3 = ['b', 'l', 'k'] ∧
      ¬((fname.drop 3).take 5).all Char.isDigit ∧
      scanfD (fname.drop 3) = some (-1) ∧
      reap [] [fname] = [] ∧
      reap [(-1 : Int)] [fname] = [fname] :=
  ⟨['b', 'l', 'k', '-', '0', '0', '0', '1', '.', 'd', 'a', 't'],
    by decide, by decide, by decide, by decide, by decide, by decide⟩

/-! ### C7: how failures are surfaced -/

/-- Counterexample for C7: a run that aborts for insufficient history and
a fully successful run both reach the shared `fail:` label and call
`exit(0)` — the status surfaced to the invoking orchestration is the same
`0` in both cases. -/
theorem c7_counterexample :
    (purgeDB ⟨true, true, true, 1000, 600, [], [], fun _ => none, true, []⟩).failure =
      some PurgeAbort.insufficientHistory ∧
    (purgeDB ⟨true, true, true, 1000, 5000, [], [], fun _ => none, true, []⟩).failure =
      none ∧
    (purgeDB ⟨true, true, true, 1000, 600, [], [], fun _ => none, true, []⟩).exitCode =
      (purgeDB ⟨true, true, true, 1000, 5000, [], [], fun _ => none, true, []⟩).exitCode := by
  refine ⟨rfl, rfl, rfl⟩

/-- C7 as amended: every exit path of the pass, successful or failed,
falls through to the single `fail:` label and terminates with `exit(0)`;
which branch failed is recorded only in the log output, so the process
exit status surfaced to the invoking orchestration never distinguishes a
failed or partial pass from a fully successful one. -/
theorem c7_uniform_exit_status (inp : PurgeInput) : (purgeDB inp).exitCode = 0 := by
  cases hl : inp.lockOk <;> cases ho : inp.loadOk <;> cases ha : inp.activateOk <;>
    by_cases ht : inp.tip ≤ inp.minHistory <;> cases hd : inp.dirExists <;>
      simp [purgeDB, abortResult, hl, ho, ha, ht, hd]

/-! ### C9: the pass only ever touches the two flag bits -/

/-- The index after any run is either untouched (an early abort) or is the
third pass's rewrite, which strips the flags of exactly the selected
blocks. -/
theorem purgeDB_blockIndex_cases (inp : PurgeInput) :
    (purgeDB inp).blockIndex = inp.blockIndex ∨
    (purgeDB inp).blockIndex = mutatedIndex inp := by
  cases hl : inp.lockOk <;> cases ho : inp.loadOk <;> cases ha : inp.activateOk <;>
    by_cases ht : inp.tip ≤ inp.minHistory <;> cases hd : inp.dirExists <;>
      simp [purgeDB, abortResult, hl, ho, ha, ht, hd]

/-- Clearing the two flag bits of a 32-bit status changes no other bit. -/
theorem clearFlags_testBit {s : Nat} (hs : s < 2 ^ 32) {k : Nat}
    (h3 : k ≠ 3) (h4 : k ≠ 4) :
    (s &&& FLAG_CLEAR_MASK).testBit k = s.testBit k := by
  rcases lt_or_ge k 32 with hk | hk
  · have hm : FLAG_CLEAR_MASK.testBit k = true := by
      revert h3 h4
      revert hk
      revert k
      decide
    rw [Nat.testBit_and, hm, Bool.and_true]
  · have hs2 : s.testBit k = false :=
      Nat.testBit_lt_two_pow (lt_of_lt_of_le hs (Nat.pow_le_pow_right (by norm_num) hk))
    have hand : (s &&& FLAG_CLEAR_MASK).testBit k = false := by
      rw [Nat.testBit_and, hs2, Bool.false_and]
    rw [hand, hs2]

/-- C9: for every Block Record known to the index, the pass changes at
most the HAS_DATA (bit 3) and HAS_UNDO (bit 4) status bits: the index
keeps the same length with records in place (no record is removed), and
each record keeps its hash, height, file id and every other status bit. -/
theorem c9_frame_effect (inp : PurgeInput)
    (hst : ∀ r ∈ inp.blockIndex, r.nStatus < 2 ^ 32) :
    (purgeDB inp).blockIndex.length = inp.blockIndex.length ∧
    List.Forall₂ (fun r s =>
        s.hash = r.hash ∧ s.nHeight = r.nHeight ∧ s.nFile = r.nFile ∧
        ∀ k, k ≠ 3 → k ≠ 4 → s.nStatus.testBit k = r.nStatus.testBit k)
      inp.blockIndex (purgeDB inp).blockIndex := by
  rcases purgeDB_blockIndex_cases inp with h | h <;> rw [h]
  · exact ⟨rfl, List.forall₂_same.mpr (fun r _ => ⟨rfl, rfl, rfl, fun k _ _ => rfl⟩)⟩
  · refine ⟨by simp [mutatedIndex], ?_⟩
    unfold mutatedIndex
    rw [List.forall₂_map_right_iff]
    apply List.forall₂_same.mpr
    intro r hr
    by_cases hp : prunableP (purgeNeed inp) inp.minHistory inp.tip r = true
    · rw [if_pos hp]
      exact ⟨rfl, rfl, rfl, fun k h3 h4 => clearFlags_testBit (hst r hr) h3 h4⟩
    · rw [if_neg hp]
      exact ⟨rfl, rfl, rfl, fun k _ _ => rfl⟩

/-- Witness for C9: a successful concrete run keeps both records, with the
pruned one keeping hash, height, file id, and bit 0 of its status. -/
theorem c9_witness :
    (purgeDB ⟨true, true, true, 1000, 5000, [⟨1, 100, 2, 9⟩, ⟨2, 4500, 3, 8⟩], [],
        fun _ => some [], true, []⟩).blockIndex.length = 2 ∧
    List.Forall₂ (fun r s =>
        s.hash = r.hash ∧ s.nHeight = r.nHeight ∧ s.nFile = r.nFile ∧
        ∀ k, k ≠ 3 → k ≠ 4 → s.nStatus.testBit k = r.nStatus.testBit k)
      [(⟨1, 100, 2, 9⟩ : BlockRecord), ⟨2, 4500, 3, 8⟩]
      (purgeDB ⟨true, true, true, 1000, 5000, [⟨1, 100, 2, 9⟩, ⟨2, 4500, 3, 8⟩], [],
        fun _ => some [], true, []⟩).blockIndex :=
  c9_frame_effect
    ⟨true, true, true, 1000, 5000, [⟨1, 100, 2, 9⟩, ⟨2, 4500, 3, 8⟩], [],
      fun _ => some [], true, []⟩
    (by decide)

/-! ### C5 and C6: the Index Mutator's loop and phase ordering -/

/-- Membership in the mutation trace: every event there is an erase for a
transaction of a successfully read selected block, or the write of a
selected block's stripped record. -/
theorem mem_mutTrace {readBlock : BlockRecord → Option (List Nat)}
    {dele : List BlockRecord} {e : PurgeEvent} :
    e ∈ mutTrace readBlock dele ↔
      ∃ b, b ∈ dele ∧
        ((∃ t, t ∈ (readBlock b).getD [] ∧ e = PurgeEvent.eraseTx t) ∨
          e = PurgeEvent.writeRecord (clearFlags b)) := by
  constructor
  · intro he
    rw [mutTrace] at he
    rcases List.mem_flatten.mp he with ⟨l, hl, hel⟩
    rcases List.mem_map.mp hl with ⟨b, hb, rfl⟩
    rcases List.mem_append.mp hel with h1 | h1
    · rcases List.mem_map.mp h1 with ⟨t, ht, rfl⟩
      exact ⟨b, hb, Or.inl ⟨t, ht, rfl⟩⟩
    · rcases List.mem_singleton.mp h1 with rfl
      exact ⟨b, hb, Or.inr rfl⟩
  · rintro ⟨b, hb, hcase⟩
    rw [mutTrace]
    apply List.mem_flatten.mpr
    refine ⟨_, List.mem_map.mpr ⟨b, hb, rfl⟩, ?_⟩
    rcases hcase with ⟨t, ht, rfl⟩ | rfl
    · exact List.mem_append.mpr (Or.inl (List.mem_map.mpr ⟨t, ht, rfl⟩))
    · exact List.mem_append.mpr (Or.inr (List.mem_singleton.mpr rfl))

/-- The mutation trace never deletes a file. -/
theorem mutTrace_not_deleteFile {readBlock : BlockRecord → Option (List Nat)}
    {dele : List BlockRecord} {e : PurgeEvent} (he : e ∈ mutTrace readBlock dele)
    (f : List Char) : e ≠ PurgeEvent.deleteFile f := by
  rcases mem_mutTrace.mp he with ⟨b, -, ⟨t, -, rfl⟩ | rfl⟩ <;> intro hc <;>
    exact PurgeEvent.noConfusion hc

/-- Every selected block's stripped record gets written. -/
theorem writeRecord_mem_mutTrace {readBlock : BlockRecord → Option (List Nat)}
    {dele : List BlockRecord} {b : BlockRecord} (hb : b ∈ dele) :
    PurgeEvent.writeRecord (clearFlags b) ∈ mutTrace readBlock dele :=
  mem_mutTrace.mpr ⟨b, hb, Or.inr rfl⟩

/-- Every erase event of the mutation trace comes from a successfully read
selected block. -/
theorem eraseTx_mem_mutTrace {readBlock : BlockRecord → Option (List Nat)}
    {dele : List BlockRecord} {t : Nat}
    (h : PurgeEvent.eraseTx t ∈ mutTrace readBlock dele) :
    ∃ b txs, b ∈ dele ∧ readBlock b = some txs ∧ t ∈ txs := by
  rcases mem_mutTrace.mp h with ⟨b, hb, ⟨u, hu, he⟩ | he⟩
  · obtain rfl : t = u := PurgeEvent.eraseTx.inj he
    cases hread : readBlock b with
    | none => rw [hread] at hu; exact absurd hu (by simp)
    | some txs =>
      rw [hread] at hu
      exact ⟨b, txs, hb, hread, hu⟩
  · exact PurgeEvent.noConfusion he

/-- The trace of any run: empty (an early abort), the mutation trace
alone (missing blocks directory), or the mutation trace followed by the
file deletions. -/
theorem purgeDB_trace_cases (inp : PurgeInput) :
    (purgeDB inp).trace = [] ∨
    (purgeDB inp).trace = mutTrace inp.readBlock (purgeDele inp) ∨
    (purgeDB inp).trace = mutTrace inp.readBlock (purgeDele inp) ++
      (reaped (purgeNeed inp) inp.dirFiles).map PurgeEvent.deleteFile := by
  cases hl : inp.lockOk <;> cases ho : inp.loadOk <;> cases ha : inp.activateOk <;>
    by_cases ht : inp.tip ≤ inp.minHistory <;> cases hd : inp.dirExists <;>
      simp [purgeDB, abortResult, hl, ho, ha, ht, hd]

/-- C6: the trace of every run splits into a mutation prefix (no file
deletion) followed by file deletions only — all Index Mutator work
precedes any File Reaper deletion; and when the blocks directory is
missing, the run reports that failure only after the index mutation has
already happened: no file is deleted and the directory is untouched, yet
the block and transaction indexes are mutated exactly as in the run with
the directory present. -/
theorem c6_mutation_before_reaping (inp : PurgeInput) :
    (∃ t1 t2, (purgeDB inp).trace = t1 ++ t2 ∧
      (∀ e ∈ t1, ∀ f, e ≠ PurgeEvent.deleteFile f) ∧
      (∀ e ∈ t2, ∃ f, e = PurgeEvent.deleteFile f)) ∧
    (inp.lockOk = true → inp.loadOk = true → inp.activateOk = true →
      inp.minHistory < inp.tip → inp.dirExists = false →
      (purgeDB inp).failure = some PurgeAbort.missingBlocksDir ∧
      (∀ e ∈ (purgeDB inp).trace, ∀ f, e ≠ PurgeEvent.deleteFile f) ∧
      (purgeDB inp).filesRemaining = inp.dirFiles ∧
      (purgeDB inp).blockIndex = (purgeDB { inp with dirExists := true }).blockIndex ∧
      (purgeDB inp).txIndex = (purgeDB { inp with dirExists := true }).txIndex) := by
  constructor
  · rcases purgeDB_trace_cases inp with h | h | h <;> rw [h]
    · exact ⟨[], [], by simp, by simp, by simp⟩
    · refine ⟨mutTrace inp.readBlock (purgeDele inp), [], by simp, ?_, by simp⟩
      exact fun e he f => mutTrace_not_deleteFile he f
    · refine ⟨mutTrace inp.readBlock (purgeDele inp),
        (reaped (purgeNeed inp) inp.dirFiles).map PurgeEvent.deleteFile, rfl, ?_, ?_⟩
      · exact fun e he f => mutTrace_not_deleteFile he f
      · intro e he
        rcases List.mem_map.mp he with ⟨g, -, rfl⟩
        exact ⟨g, rfl⟩
  · intro h1 h2 h3 h4 h5
    have ht : ¬ inp.tip ≤ inp.minHistory := not_le.mpr h4
    have hrun : purgeDB inp =
        { blockIndex := mutatedIndex inp, txIndex := mutatedTxIndex inp,
          filesRemaining := inp.dirFiles,
          trace := mutTrace inp.readBlock (purgeDele inp),
          failure := some PurgeAbort.missingBlocksDir, exitCode := 0 } := by
      simp [purgeDB, h1, h2, h3, ht, h5]
    have hrun2 : purgeDB { inp with dirExists := true } =
        { blockIndex := mutatedIndex { inp with dirExists := true },
          txIndex := mutatedTxIndex { inp with dirExists := true },
          filesRemaining := reap (purgeNeed { inp with dirExists := true }) inp.dirFiles,
          trace := mutTrace inp.readBlock (purgeDele { inp with dirExists := true }) ++
            (reaped (purgeNeed { inp with dirExists := true }) inp.dirFiles).map
              PurgeEvent.deleteFile,
          failure := none, exitCode := 0 } := by
      simp [purgeDB, h1, h2, h3, ht]
    rw [hrun, hrun2]
    refine ⟨rfl, ?_, rfl, ?_, ?_⟩
    · exact fun e he f => mutTrace_not_deleteFile he f
    · simp [mutatedIndex, purgeNeed]
    · simp [mutatedTxIndex, purgeDele, purgeNeed, erasedTxs]

/-- Witness for C6: with a missing blocks directory and one old, flagged
block, the concrete run reports the missing directory and leaves the
directory entry alone. -/
theorem c6_witness :
    (purgeDB ⟨true, true, true, 1000, 5000, [⟨1, 100, 2, 8⟩], [], fun _ => some [], false,
        [['x']]⟩).failure = some PurgeAbort.missingBlocksDir ∧
    (purgeDB ⟨true, true, true, 1000, 5000, [⟨1, 100, 2, 8⟩], [], fun _ => some [], false,
        [['x']]⟩).filesRemaining = [['x']] := by
  have h := (c6_mutation_before_reaping
    ⟨true, true, true, 1000, 5000, [⟨1, 100, 2, 8⟩], [], fun _ => some [], false,
      [['x']]⟩).2 rfl rfl rfl (by decide) rfl
  exact ⟨h.1, h.2.2.1⟩

/-- Counterexample for C5: two prunable blocks, the first of which cannot
be read from disk (`blockCache.ReadBlockFromDisk`'s result is discarded on
line 88). The run does not abort: the failing block's flags are cleared
and its record written all the same, the later prunable block is processed
(its transaction 9 is erased and its record written), and the run even
reports no failure. -/
theorem c5_counterexample :
    (purgeDB ⟨true, true, true, 1000, 5000, [⟨1, 100, 2, 8⟩, ⟨2, 200, 3, 8⟩], [9],
        fun r => if r.hash = 1 then none else some [9], true, []⟩).trace =
      [PurgeEvent.writeRecord ⟨1, 100, 2, 0⟩, PurgeEvent.eraseTx 9,
        PurgeEvent.writeRecord ⟨2, 200, 3, 0⟩] ∧
    (purgeDB ⟨true, true, true, 1000, 5000, [⟨1, 100, 2, 8⟩, ⟨2, 200, 3, 8⟩], [9],
        fun r => if r.hash = 1 then none else some [9], true, []⟩).blockIndex =
      [⟨1, 100, 2, 0⟩, ⟨2, 200, 3, 0⟩] ∧
    (purgeDB ⟨true, true, true, 1000, 5000, [⟨1, 100, 2, 8⟩, ⟨2, 200, 3, 8⟩], [9],
        fun r => if r.hash = 1 then none else some [9], true, []⟩).failure = none := by
  decide

/-- C5 as amended: a failed block read is silently ignored — the loop
does not abort. The failing block's flags are still cleared and its
record still written, every other prunable block (earlier or later) is
processed just the same, and the final index is the full rewrite; the only
effect of the failure is that no transaction entry is erased on behalf of
an unreadable block (every erase event stems from a successfully read
one). -/
theorem c5_read_failure_ignored (inp : PurgeInput) (r : BlockRecord)
    (h1 : inp.lockOk = true) (h2 : inp.loadOk = true) (h3 : inp.activateOk = true)
    (h4 : inp.minHistory < inp.tip)
    (hr : r ∈ prunableOf inp.blockIndex inp.minHistory inp.tip)
    (hfail : inp.readBlock r = none) :
    PurgeEvent.writeRecord (clearFlags r) ∈ (purgeDB inp).trace ∧
    (∀ b ∈ prunableOf inp.blockIndex inp.minHistory inp.tip,
      PurgeEvent.writeRecord (clearFlags b) ∈ (purgeDB inp).trace) ∧
    (∀ t, PurgeEvent.eraseTx t ∈ (purgeDB inp).trace →
      ∃ b txs, b ∈ prunableOf inp.blockIndex inp.minHistory inp.tip ∧
        inp.readBlock b = some txs ∧ t ∈ txs) ∧
    (purgeDB inp).blockIndex = mutatedIndex inp := by
  have ht : ¬ inp.tip ≤ inp.minHistory := not_le.mpr h4
  have htr : (purgeDB inp).trace = mutTrace inp.readBlock (purgeDele inp) ∨
      (purgeDB inp).trace = mutTrace inp.readBlock (purgeDele inp) ++
        (reaped (purgeNeed inp) inp.dirFiles).map PurgeEvent.deleteFile := by
    cases hd : inp.dirExists <;> simp [purgeDB, h1, h2, h3, ht, hd]
  have hidx : (purgeDB inp).blockIndex = mutatedIndex inp := by
    cases hd : inp.dirExists <;> simp [purgeDB, h1, h2, h3, ht, hd]
  have hmutmem : ∀ e ∈ mutTrace inp.readBlock (purgeDele inp), e ∈ (purgeDB inp).trace := by
    intro e he
    rcases htr with h | h <;> rw [h]
    · exact he
    · exact List.mem_append.mpr (Or.inl he)
  have herase : ∀ t, PurgeEvent.eraseTx t ∈ (purgeDB inp).trace →
      PurgeEvent.eraseTx t ∈ mutTrace inp.readBlock (purgeDele inp) := by
    intro t hmem
    rcases htr with h | h <;> rw [h] at hmem
    · exact hmem
    · rcases List.mem_append.mp hmem with hm | hm
      · exact hm
      · rcases List.mem_map.mp hm with ⟨g, -, hge⟩
        exact absurd hge (by intro hc; exact PurgeEvent.noConfusion hc)
  refine ⟨hmutmem _ (writeRecord_mem_mutTrace hr), ?_, ?_, hidx⟩
  · exact fun b hb => hmutmem _ (writeRecord_mem_mutTrace hb)
  · exact fun t hmem => eraseTx_mem_mutTrace (herase t hmem)

/-- Witness for C5 as amended: in the concrete two-block run whose first
prunable block is unreadable, that block's stripped record is still
written. -/
theorem c5_witness :
    PurgeEvent.writeRecord (clearFlags ⟨1, 100, 2, 8⟩) ∈
      (purgeDB ⟨true, true, true, 1000, 5000, [⟨1, 100, 2, 8⟩, ⟨2, 200, 3, 8⟩], [9],
        fun r => if r.hash = 1 then none else some [9], true, []⟩).trace :=
  (c5_read_failure_ignored _ ⟨1, 100, 2, 8⟩ rfl rfl rfl (by decide) (by decide)
    (by decide)).1

/-! ### C8: re-running the pass on the post-prune state -/

theorem setNeedOf_cons (r : BlockRecord) (idx : List BlockRecord) (minHistory tip : Int) :
    setNeedOf (r :: idx) minHistory tip =
      if tip ≤ r.nHeight + minHistory then r.nFile :: setNeedOf idx minHistory tip
      else setNeedOf idx minHistory tip := by
  by_cases h : tip ≤ r.nHeight + minHistory <;> simp [setNeedOf, List.filter_cons, h]

/-- Pass 1 looks only at heights and file ids, which the Index Mutator
preserves. -/
theorem setNeedOf_map_preserves (f : BlockRecord → BlockRecord)
    (hf : ∀ r, (f r).nHeight = r.nHeight ∧ (f r).nFile = r.nFile)
    (idx : List BlockRecord) (minHistory tip : Int) :
    setNeedOf (idx.map f) minHistory tip = setNeedOf idx minHistory tip := by
  induction idx with
  | nil => rfl
  | cons r rest ih =>
    rw [List.map_cons, setNeedOf_cons, setNeedOf_cons, (hf r).1, (hf r).2, ih]

/-- The File Identifier Set recomputed on the mutated index is unchanged. -/
theorem purgeNeed_mutated (inp : PurgeInput) :
    setNeedOf (mutatedIndex inp) inp.minHistory inp.tip = purgeNeed inp := by
  unfold mutatedIndex purgeNeed
  apply setNeedOf_map_preserves
  intro r
  constructor <;> split <;> rfl

/-- On the mutated index nothing is prunable any more: every previously
selected block has lost its flags, and every other block fails the pass-2
test for the same reason it failed it before (the set of needed file ids
is unchanged). -/
theorem prunableOf_mutated (inp : PurgeInput) :
    prunableOf (mutatedIndex inp) inp.minHistory inp.tip = [] := by
  unfold prunableOf
  rw [purgeNeed_mutated]
  apply List.filter_eq_nil_iff.mpr
  intro b hb
  rcases List.mem_map.mp hb with ⟨r, hr, rfl⟩
  by_cases hp : prunableP (purgeNeed inp) inp.minHistory inp.tip r = true
  · rw [if_pos hp]
    intro hc
    have hflags := hasDataOrUndo_clearFlags r
    simp [prunableP, hflags] at hc
  · rw [if_neg hp]
    exact hp

/-- Reaping a second time with the same needed set removes nothing. -/
theorem reaped_reap (need : List Int) (files : List (List Char)) :
    reaped need (reap need files) = [] := by
  unfold reaped reap
  rw [List.filter_filter]
  apply List.filter_eq_nil_iff.mpr
  intro f _
  simp

/-- Reaping is idempotent on the surviving entries. -/
theorem reap_reap (need : List Int) (files : List (List Char)) :
    reap need (reap need files) = reap need files := by
  unfold reap
  rw [List.filter_filter]
  simp

/-- C8: running the pass a second time with the same chain tip on the
state the first (completed) run produced — mutated index, mutated
transaction index, reaped directory — selects an empty Prunable Block
Set, performs no destructive action at all (its trace is empty, so it
deletes no files), and leaves index, transaction index and directory
exactly as the first run left them. -/
theorem c8_rerun_idempotent (inp : PurgeInput)
    (h1 : inp.lockOk = true) (h2 : inp.loadOk = true) (h3 : inp.activateOk = true)
    (h4 : inp.minHistory < inp.tip) (h5 : inp.dirExists = true) :
    prunableOf (purgeDB inp).blockIndex inp.minHistory inp.tip = [] ∧
    (purgeDB { inp with
        blockIndex := (purgeDB inp).blockIndex,
        txIndex := (purgeDB inp).txIndex,
        dirFiles := (purgeDB inp).filesRemaining }).trace = [] ∧
    (purgeDB { inp with
        blockIndex := (purgeDB inp).blockIndex,
        txIndex := (purgeDB inp).txIndex,
        dirFiles := (purgeDB inp).filesRemaining }).filesRemaining =
      (purgeDB inp).filesRemaining ∧
    (purgeDB { inp with
        blockIndex := (purgeDB inp).blockIndex,
        txIndex := (purgeDB inp).txIndex,
        dirFiles := (purgeDB inp).filesRemaining }).blockIndex =
      (purgeDB inp).blockIndex ∧
    (purgeDB { inp with
        blockIndex := (purgeDB inp).blockIndex,
        txIndex := (purgeDB inp).txIndex,
        dirFiles := (purgeDB inp).filesRemaining }).txIndex =
      (purgeDB inp).txIndex := by
  have ht : ¬ inp.tip ≤ inp.minHistory := not_le.mpr h4
  have hidx1 : (purgeDB inp).blockIndex = mutatedIndex inp := by
    simp [purgeDB, h1, h2, h3, ht, h5]
  have hfiles1 : (purgeDB inp).filesRemaining = reap (purgeNeed inp) inp.dirFiles := by
    simp [purgeDB, h1, h2, h3, ht, h5]
  have hprun : prunableOf (purgeDB inp).blockIndex inp.minHistory inp.tip = [] := by
    rw [hidx1]
    exact prunableOf_mutated inp
  refine ⟨hprun, ?_⟩
  set inp2 : PurgeInput :=
    { inp with
      blockIndex := (purgeDB inp).blockIndex,
      txIndex := (purgeDB inp).txIndex,
      dirFiles := (purgeDB inp).filesRemaining } with hinp2
  have hneed2 : purgeNeed inp2 = purgeNeed inp := by
    show setNeedOf inp2.blockIndex inp2.minHistory inp2.tip =
      setNeedOf inp.blockIndex inp.minHistory inp.tip
    rw [hinp2]
    show setNeedOf (purgeDB inp).blockIndex inp.minHistory inp.tip =
      setNeedOf inp.blockIndex inp.minHistory inp.tip
    rw [hidx1]
    exact purgeNeed_mutated inp
  have hdele2 : purgeDele inp2 = [] := by
    show prunableOf inp2.blockIndex inp2.minHistory inp2.tip = []
    rw [hinp2]
    exact hprun
  have hnone : ∀ b ∈ inp2.blockIndex,
      ¬ prunableP (purgeNeed inp2) inp2.minHistory inp2.tip b = true := by
    have hdele2f : inp2.blockIndex.filter
        (prunableP (purgeNeed inp2) inp2.minHistory inp2.tip) = [] := hdele2
    exact List.filter_eq_nil_iff.mp hdele2f
  have hmut2 : mutatedIndex inp2 = inp2.blockIndex := by
    unfold mutatedIndex
    have hid : ∀ b ∈ inp2.blockIndex,
        (if prunableP (purgeNeed inp2) inp2.minHistory inp2.tip b then clearFlags b
         else b) = b := fun b hb => if_neg (hnone b hb)
    rw [List.map_congr_left hid]
    exact List.map_id' inp2.blockIndex
  have htx2 : mutatedTxIndex inp2 = inp2.txIndex := by
    unfold mutatedTxIndex
    rw [hdele2]
    simp [erasedTxs]
  have hrun2 : purgeDB inp2 =
      { blockIndex := mutatedIndex inp2, txIndex := mutatedTxIndex inp2,
        filesRemaining := reap (purgeNeed inp2) inp2.dirFiles,
        trace := mutTrace inp2.readBlock (purgeDele inp2) ++
          (reaped (purgeNeed inp2) inp2.dirFiles).map PurgeEvent.deleteFile,
        failure := none, exitCode := 0 } := by
    simp [purgeDB, hinp2, h1, h2, h3, ht, h5]
  have hdir2 : inp2.dirFiles = reap (purgeNeed inp) inp.dirFiles := by
    rw [hinp2]
    exact hfiles1
  rw [hrun2]
  refine ⟨?_, ?_, ?_, ?_⟩
  · rw [hdele2, hneed2, hdir2, reaped_reap]
    rfl
  · rw [hneed2, hdir2, reap_reap, hinp2]
    exact hfiles1.symm
  · rw [hmut2, hinp2]
  · rw [htx2, hinp2]

/-- Witness for C8: a concrete completed run (one old block pruned, one
in-window block protected, its file kept) after which the re-run selects
nothing and has an empty trace. -/
theorem c8_witness :
    prunableOf
      (purgeDB ⟨true, true, true, 1000, 5000, [⟨1, 100, 2, 8⟩, ⟨2, 4500, 3, 8⟩], [7],
        fun _ => some [7], true,
        [['b', 'l', 'k', '0', '0', '0', '0', '2', '.', 'd', 'a', 't'],
         ['b', 'l', 'k', '0', '0', '0', '0', '3', '.', 'd', 'a', 't']]⟩).blockIndex
      1000 5000 = [] ∧
    (purgeDB { (⟨true, true, true, 1000, 5000, [⟨1, 100, 2, 8⟩, ⟨2, 4500, 3, 8⟩], [7],
        fun _ => some [7], true,
        [['b', 'l', 'k', '0', '0', '0', '0', '2', '.', 'd', 'a', 't'],
         ['b', 'l', 'k', '0', '0', '0', '0', '3', '.', 'd', 'a', 't']]⟩ : PurgeInput) with
        blockIndex := (purgeDB ⟨true, true, true, 1000, 5000,
          [⟨1, 100, 2, 8⟩, ⟨2, 4500, 3, 8⟩], [7], fun _ => some [7], true,
          [['b', 'l', 'k', '0', '0', '0', '0', '2', '.', 'd', 'a', 't'],
           ['b', 'l', 'k', '0', '0', '0', '0', '3', '.', 'd', 'a', 't']]⟩).blockIndex,
        txIndex := (purgeDB ⟨true, true, true, 1000, 5000,
          [⟨1, 100, 2, 8⟩, ⟨2, 4500, 3, 8⟩], [7], fun _ => some [7], true,
          [['b', 'l', 'k', '0', '0', '0', '0', '2', '.', 'd', 'a', 't'],
           ['b', 'l', 'k', '0', '0', '0', '0', '3', '.', 'd', 'a', 't']]⟩).txIndex,
        dirFiles := (purgeDB ⟨true, true, true, 1000, 5000,
          [⟨1, 100, 2, 8⟩, ⟨2, 4500, 3, 8⟩], [7], fun _ => some [7], true,
          [['b', 'l', 'k', '0', '0', '0', '0', '2', '.', 'd', 'a', 't'],
           ['b', 'l', 'k', '0', '0', '0', '0', '3', '.', 'd', 'a', 't']]⟩).filesRemaining
      }).trace = [] :=
  ⟨(c8_rerun_idempotent ⟨true, true, true, 1000, 5000,
      [⟨1, 100, 2, 8⟩, ⟨2, 4500, 3, 8⟩], [7], fun _ => some [7], true,
      [['b', 'l', 'k', '0', '0', '0', '0', '2', '.', 'd', 'a', 't'],
       ['b', 'l', 'k', '0', '0', '0', '0', '3', '.', 'd', 'a', 't']]⟩
      rfl rfl rfl (by decide) rfl).1,
   (c8_rerun_idempotent ⟨true, true, true, 1000, 5000,
      [⟨1, 100, 2, 8⟩, ⟨2, 4500, 3, 8⟩], [7], fun _ => some [7], true,
      [['b', 'l', 'k', '0', '0', '0', '0', '2', '.', 'd', 'a', 't'],
       ['b', 'l', 'k', '0', '0', '0', '0', '3', '.', 'd', 'a', 't']]⟩
      rfl rfl rfl (by decide) rfl).2.1⟩
